import Mathlib

/-!
Verification of the realtime voice session manager of `voice_crm`
(`frontend/src/VoiceAgent.tsx`).

The component is a React function component whose mutable refs form the
controller state.  We embed that state as an explicit structure and each
event handler / asynchronous continuation as a function on it.  Ambient
clocks (`audioContext.currentTime`, `Date.now()`) are passed to the
operations as explicit parameters.  Side effects on external objects
(stopping a buffer source, stopping media tracks, closing an audio
context, closing a socket, sending a frame) are recorded in effect-trace
lists inside the state so that "observable effect" is a statement about
the state.
-/

namespace VoiceCRM

/-- An `AudioBufferSourceNode` that `playAudioChunk` scheduled: start time and
duration in seconds on the audio-context clock (`buffer.duration =
length / sampleRate`, sample rate 24000). -/
structure ScheduledSource where
  sid : ℕ
  startTime : ℚ
  duration : ℚ
deriving Repr, DecidableEq

inductive Role
  | user
  | assistant
deriving Repr, DecidableEq

/-- A conversation entry (`Message` in VoiceAgent.tsx). -/
structure Message where
  mid : String
  text : String
  role : Role
  timestamp : ℕ
deriving Repr, DecidableEq

/-- A WebSocket object: identity plus its `readyState`
(0 CONNECTING, 1 OPEN, 2 CLOSING, 3 CLOSED). -/
structure Socket where
  sockId : ℕ
  readyState : ℕ
deriving Repr, DecidableEq

/-- A frame handed to `socket.send` — the socket it was sent on and the
base64 `audio` payload of the `input_audio_buffer.append` JSON envelope. -/
structure SentFrame where
  sockId : ℕ
  payload : String
deriving Repr, DecidableEq

/-- The controller state: the React refs and state hooks of `VoiceAgent`,
plus effect-trace lists recording irreversible external effects. -/
structure AgentState where
  isConnected : Bool
  messages : List Message
  isMuted : Bool
  socketRef : Option Socket
  audioContextRef : Option ℕ
  streamRef : Option ℕ
  nextStartTimeRef : ℚ
  scheduledAudioRef : List ScheduledSource
  sessionIdRef : ℕ
  nextNodeId : ℕ
  stopCalls : List ℕ
  stoppedStreams : List ℕ
  closedCtxs : List ℕ
  closedSockets : List ℕ
  sentFrames : List SentFrame
  wiredWorklets : List ℕ
deriving Repr, DecidableEq

/-! ## PCM codec

`decodeSample` is taken from `playAudioChunk` (line 254:
`float32[i] = pcm16[i] / 0x8000`).  The outbound half lives in
`utils/audioUtils.ts`, which is imported by VoiceAgent.tsx but absent from
the repository snapshot, so it is modelled from the spec. -/

/-- Modelled from the spec: `floatTo16BitPCM` of `utils/audioUtils` is not in
the repository snapshot; spec §4.1 defines encoding as scaling samples in
[-1,1] to 16-bit signed integers by scaling and clamping, with decode
dividing by 32768. -/
def encodeSample (x : ℚ) : ℤ :=
  let c := max (-1 : ℚ) (min 1 x)
  min 32767 ⌊c * 32768⌋

/-- Modelled from the spec: element-wise `floatTo16BitPCM`. -/
def floatTo16BitPCM (samples : List ℚ) : List ℤ :=
  samples.map encodeSample

/-- Int16 → float decode, from `playAudioChunk`: division by 0x8000. -/
def decodeSample (n : ℤ) : ℚ :=
  (n : ℚ) / 32768

/-! ## Transport text encoding (base64)

The outbound path in `startAudio` builds a binary string from the PCM bytes
and calls `window.btoa` — standard base64.  The inbound decoder
`base64ToInt16Array` is in the missing `utils/audioUtils.ts`, so it is
modelled from the spec: a reversible binary-to-text mapping with base64
semantics that rejects malformed text. -/

def base64Chars : List Char :=
  ['A', 'B', 'C', 'D', 'E', 'F', 'G', 'H', 'I', 'J', 'K', 'L', 'M',
   'N', 'O', 'P', 'Q', 'R', 'S', 'T', 'U', 'V', 'W', 'X', 'Y', 'Z',
   'a', 'b', 'c', 'd', 'e', 'f', 'g', 'h', 'i', 'j', 'k', 'l', 'm',
   'n', 'o', 'p', 'q', 'r', 's', 't', 'u', 'v', 'w', 'x', 'y', 'z',
   '0', '1', '2', '3', '4', '5', '6', '7', '8', '9', '+', '/']

def sextetToChar (n : ℕ) : Char :=
  base64Chars.getD n 'A'

def charToSextet (c : Char) : Option ℕ :=
  base64Chars.indexOf? c

/-- Base64 encoding of a byte list, three bytes per four output characters,
padded with `=`. -/
def encodeChunks : List ℕ → List Char
  | [] => []
  | [b1] =>
    [sextetToChar (b1 / 4), sextetToChar (b1 % 4 * 16), '=', '=']
  | [b1, b2] =>
    [sextetToChar (b1 / 4), sextetToChar (b1 % 4 * 16 + b2 / 16),
     sextetToChar (b2 % 16 * 4), '=']
  | b1 :: b2 :: b3 :: rest =>
    sextetToChar (b1 / 4) :: sextetToChar (b1 % 4 * 16 + b2 / 16) ::
    sextetToChar (b2 % 16 * 4 + b3 / 64) :: sextetToChar (b3 % 64) ::
    encodeChunks rest

/-- Decode one base64 quantum; `=` padding allowed only in the last one or
two positions. -/
def decode4 (c1 c2 c3 c4 : Char) : Option (List ℕ) :=
  match charToSextet c1, charToSextet c2 with
  | some s1, some s2 =>
    if c3 = '=' then
      if c4 = '=' then some [s1 * 4 + s2 / 16] else none
    else
      match charToSextet c3 with
      | some s3 =>
        if c4 = '=' then
          some [s1 * 4 + s2 / 16, s2 % 16 * 16 + s3 / 4]
        else
          match charToSextet c4 with
          | some s4 =>
            some [s1 * 4 + s2 / 16, s2 % 16 * 16 + s3 / 4, s3 % 4 * 64 + s4]
          | none => none
      | none => none
  | _, _ => none

/-- Base64 decoding: four characters at a time; a quantum containing padding
must be the last one; any other shape is malformed and rejected. -/
def decodeChunks : List Char → Option (List ℕ)
  | [] => some []
  | c1 :: c2 :: c3 :: c4 :: rest =>
    if (c3 = '=' ∨ c4 = '=') ∧ rest ≠ [] then none
    else
      match decode4 c1 c2 c3 c4 with
      | none => none
      | some g =>
        match decodeChunks rest with
        | none => none
        | some r => some (g ++ r)
  | _ => none

/-- `window.btoa` over the byte string built in `startAudio`. -/
def toTransportText (bytes : List ℕ) : String :=
  String.mk (encodeChunks bytes)

/-- Modelled from the spec: the inverse transport-text mapping used by
`base64ToInt16Array` (missing `utils/audioUtils.ts`); rejects malformed
text with a decoding error (`none`) rather than partial output. -/
def fromTransportText (s : String) : Option (List ℕ) :=
  decodeChunks s.data

/-- Two's-complement reinterpretation of an unsigned 16-bit value. -/
def toInt16 (n : ℕ) : ℤ :=
  if n % 65536 < 32768 then (n % 65536 : ℤ) else (n % 65536 : ℤ) - 65536

/-- Little-endian byte pairs to int16 samples (an `Int16Array` view over the
decoded bytes). -/
def bytesToInt16 : List ℕ → List ℤ
  | b0 :: b1 :: rest => toInt16 (b0 % 256 + 256 * (b1 % 256)) :: bytesToInt16 rest
  | _ => []

/-- Modelled from the spec: `base64ToInt16Array` of the missing
`utils/audioUtils.ts` — transport-text decode then int16 view. -/
def base64ToInt16Array (s : String) : Option (List ℤ) :=
  (fromTransportText s).map bytesToInt16

/-- Int16 samples to little-endian bytes (the `Uint8Array(pcm16.buffer)`
view in `startAudio`). -/
def int16ToBytes : List ℤ → List ℕ
  | [] => []
  | n :: rest => (n % 65536).toNat % 256 :: (n % 65536).toNat / 256 :: int16ToBytes rest

/-! ## Controller operations

Each function mirrors one function or installed callback of
`VoiceAgent.tsx`.  `now` is `audioContextRef.current.currentTime` at the
moment the operation runs; `tNow` is `Date.now()`. -/

/-- `addMessage`: append a conversation entry. -/
def addMessage (message : Message) (st : AgentState) : AgentState :=
  { st with messages := st.messages ++ [message] }

/-- `playAudioChunk`: no-op without an audio context; otherwise decode the
int16 samples, build a buffer, schedule it at `max(currentTime,
nextStartTimeRef)` and advance the cursor by `buffer.duration`. -/
def playAudioChunk (now : ℚ) (pcmData : List ℤ) (st : AgentState) : AgentState :=
  match st.audioContextRef with
  | none => st
  | some _ =>
    let float32 := pcmData.map decodeSample
    let dur : ℚ := (float32.length : ℚ) / 24000
    let startTime := max now st.nextStartTimeRef
    { st with
      scheduledAudioRef := st.scheduledAudioRef ++ [⟨st.nextNodeId, startTime, dur⟩],
      nextStartTimeRef := startTime + dur,
      nextNodeId := st.nextNodeId + 1 }

/-- The `source.onended` callback: a source removes itself from the
scheduled set on natural completion. -/
def onEnded (sid : ℕ) (st : AgentState) : AgentState :=
  { st with scheduledAudioRef := st.scheduledAudioRef.filter (fun s => s.sid ≠ sid) }

/-- `clearAudioQueue`: call `stop()` on every scheduled source (errors from
already-finished sources are caught and ignored), empty the scheduled set,
and — only if an audio context exists — reset the cursor to `currentTime`. -/
def clearAudioQueue (now : ℚ) (st : AgentState) : AgentState :=
  let st1 := { st with
    stopCalls := st.stopCalls ++ st.scheduledAudioRef.map ScheduledSource.sid,
    scheduledAudioRef := [] }
  match st1.audioContextRef with
  | some _ => { st1 with nextStartTimeRef := now }
  | none => st1

/-- `stopAudio`: flush the queue, stop the capture tracks and drop the
stream refs, close the audio context and drop its ref, mark disconnected. -/
def stopAudio (now : ℚ) (st : AgentState) : AgentState :=
  let st1 := clearAudioQueue now st
  let st2 :=
    match st1.streamRef with
    | some s => { st1 with stoppedStreams := st1.stoppedStreams ++ [s], streamRef := none }
    | none => st1
  let st3 :=
    match st2.audioContextRef with
    | some c => { st2 with closedCtxs := st2.closedCtxs ++ [c], audioContextRef := none }
    | none => st2
  { st3 with isConnected := false }

/-- `stopSession(socketToClose?)`: bump the epoch to invalidate in-flight
async work, close `socketToClose ?? socketRef.current` (ignoring close
errors), null the ref unless a different socket was passed, stop audio,
reset the mute flag. -/
def stopSession (now : ℚ) (socketToClose : Option Socket) (st : AgentState) : AgentState :=
  let st1 := { st with sessionIdRef := st.sessionIdRef + 1 }
  let sock := match socketToClose with
    | some sk => some sk
    | none => st1.socketRef
  let st2 :=
    match sock with
    | some sk => { st1 with closedSockets := st1.closedSockets ++ [sk.sockId] }
    | none => st1
  let st3 :=
    if socketToClose = none ∨ st2.socketRef = socketToClose
    then { st2 with socketRef := none }
    else st2
  let st4 := stopAudio now st3
  { st4 with isMuted := false }

/-- The synchronous body of `startSession`: reset mute, bump the epoch
(`currentSessionId = ++sessionIdRef.current`), create the socket and store
it.  The socket callbacks and `startAudio` phases below capture
`currentSessionId = (startSession sock st).sessionIdRef`. -/
def startSession (newSock : Socket) (st : AgentState) : AgentState :=
  { st with
    isMuted := false,
    sessionIdRef := st.sessionIdRef + 1,
    socketRef := some newSock }

/-- `socket.onopen`: epoch guard, then mark connected. -/
def onOpenHandler (currentSessionId : ℕ) (st : AgentState) : AgentState :=
  if st.sessionIdRef ≠ currentSessionId then st
  else { st with isConnected := true }

/-- `socket.onclose`: epoch guard, then `setIsConnected(false)` and
`stopAudio()`. -/
def onCloseHandler (currentSessionId : ℕ) (now : ℚ) (st : AgentState) : AgentState :=
  if st.sessionIdRef ≠ currentSessionId then st
  else stopAudio now { st with isConnected := false }

/-- `socket.onerror`: epoch guard, then `stopSession(socket)` on the socket
the handler belongs to. -/
def onErrorHandler (currentSessionId : ℕ) (now : ℚ) (socket : Socket) (st : AgentState) : AgentState :=
  if st.sessionIdRef ≠ currentSessionId then st
  else stopSession now (some socket) st

/-- JavaScript `String.prototype.trim`: strip whitespace from both ends.
(Defined over the character list so that it evaluates by kernel
reduction.) -/
def trimString (s : String) : String :=
  ⟨((s.data.dropWhile Char.isWhitespace).reverse.dropWhile Char.isWhitespace).reverse⟩

/-- An inbound transport message: either text `JSON.parse` rejects, or a
parsed object with the optional fields the dispatcher consumes. -/
structure JsonMsg where
  type : Option String
  delta : Option String
  transcript : Option String
  fname : Option String
  argmts : Option String
  errmsg : Option String
deriving Repr, DecidableEq

inductive InMsg
  | nonJson (raw : String)
  | json (m : JsonMsg)
deriving Repr, DecidableEq

/-- `socket.onmessage`: the protocol dispatcher.  `currentSessionId` is in
the closure's scope but — unlike the other socket callbacks — is never
compared against the current epoch.  Non-JSON payloads are caught, logged
and dropped; unknown types are ignored; `data.transcript || ''` treats a
missing transcript as empty; `error` and `response.function_call_arguments.done`
only log. -/
def onMessageHandler (currentSessionId : ℕ) (now : ℚ) (tNow : ℕ)
    (msg : InMsg) (st : AgentState) : AgentState :=
  match msg with
  | .nonJson _ => st
  | .json m =>
    if m.type = some "response.audio.delta" then
      match m.delta with
      | some d =>
        match base64ToInt16Array d with
        | some pcm => playAudioChunk now pcm st
        | none => st
      | none => st
    else if m.type = some "conversation.item.input_audio_transcription.completed" then
      let transcript := m.transcript.getD ""
      if trimString transcript ≠ "" then
        addMessage ⟨"user-" ++ toString tNow, transcript, Role.user, tNow⟩ st
      else st
    else if m.type = some "response.audio_transcript.done" then
      let transcript := m.transcript.getD ""
      if trimString transcript ≠ "" then
        addMessage ⟨"assistant-" ++ toString tNow, transcript, Role.assistant, tNow⟩ st
      else st
    else if m.type = some "response.function_call_arguments.done" then st
    else if m.type = some "input_audio_buffer.speech_started" then
      clearAudioQueue now st
    else if m.type = some "error" then st
    else st

/-- `toggleMute`: only acts while a capture stream exists; flips the track
enabled bits and the flag without tearing the pipeline down. -/
def toggleMute (st : AgentState) : AgentState :=
  match st.streamRef with
  | some _ => { st with isMuted := !st.isMuted }
  | none => st

/-- `startAudio` up to its first `await`: create the 24 kHz audio context,
store it, and set the cursor to its `currentTime`. -/
def startAudioPhaseA (ctx : ℕ) (now : ℚ) (st : AgentState) : AgentState :=
  { st with audioContextRef := some ctx, nextStartTimeRef := now }

/-- The continuation after `audioWorklet.addModule` resolves: if the epoch
moved on or the context was replaced, close the just-created context
(ignoring errors), null the ref only if it still points at it, and return;
otherwise proceed unchanged (the `getUserMedia` prompt is then issued). -/
def startAudioPhaseB (sessionId : ℕ) (ctx : ℕ) (st : AgentState) : AgentState :=
  if st.sessionIdRef ≠ sessionId ∨ st.audioContextRef ≠ some ctx then
    let st1 := { st with closedCtxs := st.closedCtxs ++ [ctx] }
    if st1.audioContextRef = some ctx then { st1 with audioContextRef := none }
    else st1
  else st

/-- The continuation after `getUserMedia` resolves with `stream`: if the
epoch moved on or the context was replaced, stop the just-acquired tracks,
close the context and return — the handle is never stored; otherwise store
the stream and wire the worklet capture handler. -/
def startAudioPhaseC (sessionId : ℕ) (ctx : ℕ) (stream : ℕ) (st : AgentState) : AgentState :=
  if st.sessionIdRef ≠ sessionId ∨ st.audioContextRef ≠ some ctx then
    let st1 := { st with stoppedStreams := st.stoppedStreams ++ [stream] }
    let st2 := { st1 with closedCtxs := st1.closedCtxs ++ [ctx] }
    if st2.audioContextRef = some ctx then { st2 with audioContextRef := none }
    else st2
  else
    { st with
      streamRef := some stream,
      wiredWorklets := st.wiredWorklets ++ [stream] }

/-- `startAudio`'s `catch` block: the rejection continuation of the
module load and of the permission prompt (and of any failure inside
`startAudio`'s body).  It logs the error and calls `stopSession()` — with
no argument, so the *current* `socketRef` is closed — and performs no
epoch comparison at all; `sessionId` is in scope but never consulted. -/
def startAudioCatch (sessionId : ℕ) (now : ℚ) (st : AgentState) : AgentState :=
  stopSession now none st

/-- `workletNode.port.onmessage`: encode the float block to PCM16, base64 it,
and send it iff `socketRef.current?.readyState === WebSocket.OPEN`.
`sessionId` (the epoch `startAudio` ran at) is in scope but never
consulted. -/
def captureFrameHandler (sessionId : ℕ) (samples : List ℚ) (st : AgentState) : AgentState :=
  let pcm16 := floatTo16BitPCM samples
  let base64 := toTransportText (int16ToBytes pcm16)
  match st.socketRef with
  | some sk =>
    if sk.readyState = 1 then
      { st with sentFrames := st.sentFrames ++ [⟨sk.sockId, base64⟩] }
    else st
  | none => st

/-- Whether `socketRef.current?.readyState === WebSocket.OPEN`. -/
def socketIsOpen (st : AgentState) : Bool :=
  match st.socketRef with
  | some sk => sk.readyState == 1
  | none => false

/-- A sequence of controller-level `start`/`stop` calls. -/
inductive SessionOp
  | start (sock : Socket)
  | stop
deriving Repr

def runSessionOps (now : ℚ) : AgentState → List SessionOp → AgentState
  | st, [] => st
  | st, SessionOp.start sock :: rest => runSessionOps now (startSession sock st) rest
  | st, SessionOp.stop :: rest => runSessionOps now (stopSession now none st) rest

/-- A sequence of `playAudioChunk` deliveries, each with the clock value at
delivery time. -/
def enqueueRun (st : AgentState) : List (ℚ × List ℤ) → AgentState
  | [] => st
  | (now, pcm) :: rest => enqueueRun (playAudioChunk now pcm st) rest

/-! ## Canonical forms of the branch-heavy operations -/

theorem clearAudioQueue_eq (now : ℚ) (st : AgentState) :
    clearAudioQueue now st =
      { st with
        stopCalls := st.stopCalls ++ st.scheduledAudioRef.map ScheduledSource.sid,
        scheduledAudioRef := [],
        nextStartTimeRef :=
          if st.audioContextRef.isSome then now else st.nextStartTimeRef } := by
  unfold clearAudioQueue
  cases h : st.audioContextRef <;> simp [h]

theorem stopAudio_eq (now : ℚ) (st : AgentState) :
    stopAudio now st =
      { st with
        stopCalls := st.stopCalls ++ st.scheduledAudioRef.map ScheduledSource.sid,
        scheduledAudioRef := [],
        nextStartTimeRef :=
          if st.audioContextRef.isSome then now else st.nextStartTimeRef,
        stoppedStreams := st.stoppedStreams ++ st.streamRef.toList,
        streamRef := none,
        closedCtxs := st.closedCtxs ++ st.audioContextRef.toList,
        audioContextRef := none,
        isConnected := false } := by
  unfold stopAudio
  rw [clearAudioQueue_eq]
  cases hs : st.streamRef <;> cases hc : st.audioContextRef <;> simp [hs, hc]

theorem stopSession_eq (now : ℚ) (sc : Option Socket) (st : AgentState) :
    stopSession now sc st =
      { st with
        sessionIdRef := st.sessionIdRef + 1,
        closedSockets := st.closedSockets ++
          (match sc with
           | some sk => [sk.sockId]
           | none => st.socketRef.toList.map Socket.sockId),
        socketRef := if sc = none ∨ st.socketRef = sc then none else st.socketRef,
        stopCalls := st.stopCalls ++ st.scheduledAudioRef.map ScheduledSource.sid,
        scheduledAudioRef := [],
        nextStartTimeRef :=
          if st.audioContextRef.isSome then now else st.nextStartTimeRef,
        stoppedStreams := st.stoppedStreams ++ st.streamRef.toList,
        streamRef := none,
        closedCtxs := st.closedCtxs ++ st.audioContextRef.toList,
        audioContextRef := none,
        isConnected := false,
        isMuted := false } := by
  unfold stopSession
  cases hc : sc <;> cases hr : st.socketRef <;>
    simp [hc, hr, stopAudio_eq] <;> split <;> simp_all

/-! ## Epoch preservation of the non-lifecycle operations -/

theorem sessionIdRef_addMessage (m : Message) (st : AgentState) :
    (addMessage m st).sessionIdRef = st.sessionIdRef := rfl

theorem sessionIdRef_playAudioChunk (now : ℚ) (pcm : List ℤ) (st : AgentState) :
    (playAudioChunk now pcm st).sessionIdRef = st.sessionIdRef := by
  unfold playAudioChunk
  cases h : st.audioContextRef <;> simp [h]

theorem sessionIdRef_onEnded (sid : ℕ) (st : AgentState) :
    (onEnded sid st).sessionIdRef = st.sessionIdRef := rfl

theorem sessionIdRef_clearAudioQueue (now : ℚ) (st : AgentState) :
    (clearAudioQueue now st).sessionIdRef = st.sessionIdRef := by
  rw [clearAudioQueue_eq]

theorem sessionIdRef_stopAudio (now : ℚ) (st : AgentState) :
    (stopAudio now st).sessionIdRef = st.sessionIdRef := by
  rw [stopAudio_eq]

theorem sessionIdRef_toggleMute (st : AgentState) :
    (toggleMute st).sessionIdRef = st.sessionIdRef := by
  unfold toggleMute
  cases h : st.streamRef <;> simp [h]

theorem sessionIdRef_onOpenHandler (e : ℕ) (st : AgentState) :
    (onOpenHandler e st).sessionIdRef = st.sessionIdRef := by
  unfold onOpenHandler
  split <;> rfl

theorem sessionIdRef_onCloseHandler (e : ℕ) (now : ℚ) (st : AgentState) :
    (onCloseHandler e now st).sessionIdRef = st.sessionIdRef := by
  unfold onCloseHandler
  split
  · rfl
  · rw [stopAudio_eq]

theorem sessionIdRef_onMessageHandler (e : ℕ) (now : ℚ) (tNow : ℕ) (msg : InMsg)
    (st : AgentState) :
    (onMessageHandler e now tNow msg st).sessionIdRef = st.sessionIdRef := by
  unfold onMessageHandler
  match msg with
  | .nonJson raw => rfl
  | .json m =>
    simp only
    split_ifs <;>
      first
        | rfl
        | simp [addMessage]
        | simp [sessionIdRef_clearAudioQueue]
        | (cases hd : m.delta with
           | none => rfl
           | some d =>
             cases hb : base64ToInt16Array d with
             | none => simp [hb]
             | some pcm => simp [hb, sessionIdRef_playAudioChunk])

theorem sessionIdRef_captureFrameHandler (e : ℕ) (x : List ℚ) (st : AgentState) :
    (captureFrameHandler e x st).sessionIdRef = st.sessionIdRef := by
  unfold captureFrameHandler
  cases h : st.socketRef <;> simp [h] <;> split <;> rfl

theorem sessionIdRef_runSessionOps (now : ℚ) :
    ∀ (ops : List SessionOp) (st : AgentState),
      (runSessionOps now st ops).sessionIdRef = st.sessionIdRef + ops.length := by
  intro ops
  induction ops with
  | nil => intro st; rfl
  | cons op rest ih =>
    intro st
    cases op with
    | start sock => simp [runSessionOps, ih, startSession]; omega
    | stop => simp [runSessionOps, ih, stopSession_eq]; omega

/-! ## Claim theorems -/

/-- **C2**: For every sequence of start() and stop() calls, the Session Epoch
is strictly increasing: each `startSession` and each `stopSession` increments
it by exactly one (so after any sequence of n such calls it has grown by n),
and no other operation of the component changes it. -/
theorem c2_epoch_strictly_increasing :
    (∀ sock st, (startSession sock st).sessionIdRef = st.sessionIdRef + 1) ∧
    (∀ now sc st, (stopSession now sc st).sessionIdRef = st.sessionIdRef + 1) ∧
    (∀ now ops st, (runSessionOps now st ops).sessionIdRef = st.sessionIdRef + ops.length) ∧
    (∀ now pcm st, (playAudioChunk now pcm st).sessionIdRef = st.sessionIdRef) ∧
    (∀ now st, (clearAudioQueue now st).sessionIdRef = st.sessionIdRef) ∧
    (∀ now st, (stopAudio now st).sessionIdRef = st.sessionIdRef) ∧
    (∀ m st, (addMessage m st).sessionIdRef = st.sessionIdRef) ∧
    (∀ st, (toggleMute st).sessionIdRef = st.sessionIdRef) ∧
    (∀ sid st, (onEnded sid st).sessionIdRef = st.sessionIdRef) ∧
    (∀ e st, (onOpenHandler e st).sessionIdRef = st.sessionIdRef) ∧
    (∀ e now st, (onCloseHandler e now st).sessionIdRef = st.sessionIdRef) ∧
    (∀ e now t m st, (onMessageHandler e now t m st).sessionIdRef = st.sessionIdRef) ∧
    (∀ e x st, (captureFrameHandler e x st).sessionIdRef = st.sessionIdRef) := by
  refine ⟨?_, ?_, ?_, ?_, ?_, ?_, ?_, ?_, ?_, ?_, ?_, ?_, ?_⟩
  · intro sock st; rfl
  · intro now sc st; rw [stopSession_eq]
  · intro now ops st; exact sessionIdRef_runSessionOps now ops st
  · exact sessionIdRef_playAudioChunk
  · exact sessionIdRef_clearAudioQueue
  · exact sessionIdRef_stopAudio
  · exact sessionIdRef_addMessage
  · exact sessionIdRef_toggleMute
  · exact sessionIdRef_onEnded
  · exact sessionIdRef_onOpenHandler
  · exact sessionIdRef_onCloseHandler
  · exact sessionIdRef_onMessageHandler
  · exact sessionIdRef_captureFrameHandler

/-- **C10**: delivering an audio chunk while the output context does not
exist is a complete no-op: the state, in particular the scheduled set and
the cursor, is returned unchanged. -/
theorem c10_no_context_drops_chunk (now : ℚ) (pcm : List ℤ) (st : AgentState)
    (h : st.audioContextRef = none) :
    playAudioChunk now pcm st = st := by
  unfold playAudioChunk
  rw [h]

/-- The component's initial state: all refs null, epoch 0. -/
def idleState : AgentState :=
  { isConnected := false, messages := [], isMuted := false, socketRef := none,
    audioContextRef := none, streamRef := none, nextStartTimeRef := 0,
    scheduledAudioRef := [], sessionIdRef := 0, nextNodeId := 0, stopCalls := [],
    stoppedStreams := [], closedCtxs := [], closedSockets := [], sentFrames := [],
    wiredWorklets := [] }

/-- Witness for C10 at a concrete input. -/
theorem c10_witness : playAudioChunk 3 [5, -5] idleState = idleState :=
  c10_no_context_drops_chunk 3 [5, -5] idleState rfl

/-- A reachable state after `stopSession`: the audio context is released and
the cursor still holds the clock value captured by the stop-time flush. -/
def staleCursorState : AgentState :=
  { idleState with nextStartTimeRef := 5, sessionIdRef := 2 }

/-- **C4 counterexample**: flushing while the audio context is absent leaves
the cursor at its earlier value (5) instead of the clock value at flush
time (7), contradicting the claim's "regardless of prior state … the cursor
equals the playback clock's value at the time of the flush". -/
theorem c4_counterexample :
    staleCursorState.audioContextRef = none ∧
    (clearAudioQueue 7 staleCursorState).nextStartTimeRef = 5 ∧ (5 : ℚ) ≠ 7 := by
  refine ⟨rfl, ?_, by norm_num⟩
  simp [clearAudioQueue_eq, staleCursorState, idleState]

/-- **C4 amended**: after `clearAudioQueue`, the scheduled set is empty and
`stop()` was invoked on every previously scheduled unit (errors ignored);
the cursor is reset to the clock value at flush time whenever the output
context exists, and is left unchanged when the context has been released. -/
theorem c4_flush_clears_state :
    (∀ (now : ℚ) (st : AgentState), st.audioContextRef.isSome →
      (clearAudioQueue now st).scheduledAudioRef = [] ∧
      (clearAudioQueue now st).nextStartTimeRef = now ∧
      ∀ u ∈ st.scheduledAudioRef, u.sid ∈ (clearAudioQueue now st).stopCalls) ∧
    (∀ (now : ℚ) (st : AgentState), st.audioContextRef = none →
      (clearAudioQueue now st).scheduledAudioRef = [] ∧
      (clearAudioQueue now st).nextStartTimeRef = st.nextStartTimeRef ∧
      ∀ u ∈ st.scheduledAudioRef, u.sid ∈ (clearAudioQueue now st).stopCalls) := by
  constructor <;> intro now st h <;> rw [clearAudioQueue_eq] <;>
    refine ⟨rfl, by simp [h], ?_⟩ <;>
    · intro u hu
      simp only [List.mem_append, List.mem_map]
      exact Or.inr ⟨u, hu, rfl⟩

/-- A state with a live audio context and two scheduled units. -/
def flushWitnessState : AgentState :=
  { idleState with
    audioContextRef := some 3, nextStartTimeRef := 2,
    scheduledAudioRef := [⟨0, 1, 1⟩, ⟨1, 2, 1⟩], nextNodeId := 2 }

/-- Witness for C4 at a concrete input. -/
theorem c4_witness :
    (clearAudioQueue 7 flushWitnessState).scheduledAudioRef = [] ∧
    (clearAudioQueue 7 flushWitnessState).nextStartTimeRef = 7 ∧
    ∀ u ∈ flushWitnessState.scheduledAudioRef,
      u.sid ∈ (clearAudioQueue 7 flushWitnessState).stopCalls :=
  c4_flush_clears_state.1 7 flushWitnessState rfl

/-- A fully active session at epoch 1, muted, with one scheduled unit. -/
def activeState : AgentState :=
  { isConnected := true, messages := [], isMuted := true, socketRef := some ⟨7, 1⟩,
    audioContextRef := some 3, streamRef := some 4, nextStartTimeRef := 2,
    scheduledAudioRef := [⟨0, 1, 1⟩], sessionIdRef := 1, nextNodeId := 1, stopCalls := [],
    stoppedStreams := [], closedCtxs := [], closedSockets := [], sentFrames := [],
    wiredWorklets := [] }

/-- **C5 counterexample**: a transport `onClose` during an active epoch-1
session leaves the epoch at 1 (stop() would make it 2), leaves the mute flag
set (stop() clears it) and closes no socket — the cleanup is not the full
`stop()` cleanup the claim demands. -/
theorem c5_counterexample :
    activeState.isConnected = true ∧
    activeState.sessionIdRef = 1 ∧
    activeState.isMuted = true ∧
    (onCloseHandler 1 9 activeState).sessionIdRef = 1 ∧
    (onCloseHandler 1 9 activeState).isMuted = true ∧
    (onCloseHandler 1 9 activeState).closedSockets = [] ∧
    (onCloseHandler 1 9 activeState).socketRef = some ⟨7, 1⟩ := by
  refine ⟨rfl, rfl, rfl, ?_, ?_, ?_, ?_⟩ <;>
    simp [onCloseHandler, activeState, stopAudio_eq]

/-- **C5 amended**: while the epoch matches, transport `onError` runs the
full `stop()` cleanup (epoch bumped, socket closed, queue flushed, capture
and engine released, mute cleared), but transport `onClose` runs only the
audio cleanup: it flushes, releases capture and engine and marks
disconnected without bumping the epoch, clearing the mute flag, closing a
socket or dropping the connection ref. -/
theorem c5_unsolicited_termination (e : ℕ) (now : ℚ) (sock : Socket) (st : AgentState)
    (h : st.sessionIdRef = e) :
    ((onErrorHandler e now sock st).sessionIdRef = st.sessionIdRef + 1 ∧
     (onErrorHandler e now sock st).isMuted = false ∧
     sock.sockId ∈ (onErrorHandler e now sock st).closedSockets ∧
     (onErrorHandler e now sock st).scheduledAudioRef = [] ∧
     (onErrorHandler e now sock st).streamRef = none ∧
     (onErrorHandler e now sock st).audioContextRef = none ∧
     (onErrorHandler e now sock st).isConnected = false) ∧
    ((onCloseHandler e now st).sessionIdRef = st.sessionIdRef ∧
     (onCloseHandler e now st).isMuted = st.isMuted ∧
     (onCloseHandler e now st).closedSockets = st.closedSockets ∧
     (onCloseHandler e now st).socketRef = st.socketRef ∧
     (onCloseHandler e now st).scheduledAudioRef = [] ∧
     (onCloseHandler e now st).streamRef = none ∧
     (onCloseHandler e now st).audioContextRef = none ∧
     (onCloseHandler e now st).isConnected = false) := by
  subst h
  constructor
  · simp [onErrorHandler, stopSession_eq]
  · simp [onCloseHandler, stopAudio_eq]

/-- Witness for C5 at a concrete input. -/
theorem c5_witness :
    ((onErrorHandler 1 9 ⟨7, 1⟩ activeState).sessionIdRef = activeState.sessionIdRef + 1 ∧
     (onErrorHandler 1 9 ⟨7, 1⟩ activeState).isMuted = false ∧
     (7 : ℕ) ∈ (onErrorHandler 1 9 ⟨7, 1⟩ activeState).closedSockets ∧
     (onErrorHandler 1 9 ⟨7, 1⟩ activeState).scheduledAudioRef = [] ∧
     (onErrorHandler 1 9 ⟨7, 1⟩ activeState).streamRef = none ∧
     (onErrorHandler 1 9 ⟨7, 1⟩ activeState).audioContextRef = none ∧
     (onErrorHandler 1 9 ⟨7, 1⟩ activeState).isConnected = false) ∧
    ((onCloseHandler 1 9 activeState).sessionIdRef = activeState.sessionIdRef ∧
     (onCloseHandler 1 9 activeState).isMuted = activeState.isMuted ∧
     (onCloseHandler 1 9 activeState).closedSockets = activeState.closedSockets ∧
     (onCloseHandler 1 9 activeState).socketRef = activeState.socketRef ∧
     (onCloseHandler 1 9 activeState).scheduledAudioRef = [] ∧
     (onCloseHandler 1 9 activeState).streamRef = none ∧
     (onCloseHandler 1 9 activeState).audioContextRef = none ∧
     (onCloseHandler 1 9 activeState).isConnected = false) :=
  c5_unsolicited_termination 1 9 ⟨7, 1⟩ activeState rfl

/-- A state in which a second session (epoch 2) already has an open socket
while a capture handler wired at epoch 1 can still fire. -/
def secondSessionState : AgentState :=
  { idleState with sessionIdRef := 2, socketRef := some ⟨7, 1⟩ }

/-- **C6 counterexample**: the capture handler wired at epoch 1 fires while
the controller's current epoch is 2 and the (new) connection is open — the
frame is sent anyway, violating the claim's "only if the current epoch
still equals the epoch at which the capture pipeline was started". -/
theorem c6_counterexample :
    secondSessionState.sessionIdRef = 2 ∧
    secondSessionState.sentFrames = [] ∧
    (captureFrameHandler 1 [0] secondSessionState).sentFrames ≠ [] := by
  have h0 : floatTo16BitPCM [0] = [0] := by norm_num [floatTo16BitPCM, encodeSample]
  refine ⟨rfl, rfl, ?_⟩
  simp [captureFrameHandler, secondSessionState, idleState, h0]

/-- **C6 amended**: a capture frame is sent if and only if the *current*
connection handle exists and is in the open state — the captured epoch is
never consulted (the handler behaves identically at every epoch); a frame
that is not sent is discarded without any other effect. -/
theorem c6_send_condition (e : ℕ) (x : List ℚ) (st : AgentState) :
    (∀ e2, captureFrameHandler e x st = captureFrameHandler e2 x st) ∧
    (∀ sk, st.socketRef = some sk → sk.readyState = 1 →
      captureFrameHandler e x st =
        { st with sentFrames := st.sentFrames ++
            [⟨sk.sockId, toTransportText (int16ToBytes (floatTo16BitPCM x))⟩] }) ∧
    (∀ sk, st.socketRef = some sk → sk.readyState ≠ 1 →
      captureFrameHandler e x st = st) ∧
    (st.socketRef = none → captureFrameHandler e x st = st) := by
  refine ⟨fun e2 => rfl, ?_, ?_, ?_⟩
  · intro sk h h1
    simp [captureFrameHandler, h, h1]
  · intro sk h h1
    simp [captureFrameHandler, h, h1]
  · intro h
    simp [captureFrameHandler, h]

/-- Witness for C6 at a concrete input. -/
theorem c6_witness :
    captureFrameHandler 1 [0] secondSessionState =
      { secondSessionState with sentFrames :=
          [⟨7, toTransportText (int16ToBytes (floatTo16BitPCM [0]))⟩] } :=
  (c6_send_condition 1 [0] secondSessionState).2.1 ⟨7, 1⟩ rfl rfl

/-- A transcript-done message from a superseded session's socket. -/
def staleTranscriptMsg : InMsg :=
  InMsg.json ⟨some "response.audio_transcript.done", none, some "hello", none, none, none⟩

/-- The state after the epoch moved on to 2 while an epoch-1 message
handler can still fire. -/
def staleEpochState : AgentState :=
  { idleState with sessionIdRef := 2 }

/-- A restarted session at epoch 2 whose new socket (id 9) is open while an
epoch-1 `startAudio` rejection continuation can still fire. -/
def staleCatchState : AgentState :=
  { idleState with sessionIdRef := 2, socketRef := some ⟨9, 1⟩ }

/-- **C1 counterexample**: two asynchronous continuations run at a stale
epoch with observable effects.  The inbound-message continuation
(`socket.onmessage`) installed at epoch 1 runs while the current epoch is 2
and appends a Conversation Entry.  The `startAudio` rejection continuation
(the `catch` reached when the module load or the permission prompt
rejects), issued at epoch 1, runs at epoch 2 and performs the full
`stopSession()` cleanup: it bumps the epoch to 3 and closes the *new*
session's socket — far beyond releasing resources it just acquired. -/
theorem c1_counterexample :
    staleEpochState.sessionIdRef = 2 ∧
    staleEpochState.messages = [] ∧
    (onMessageHandler 1 0 5 staleTranscriptMsg staleEpochState).messages ≠ [] ∧
    staleCatchState.sessionIdRef = 2 ∧
    staleCatchState.closedSockets = [] ∧
    (startAudioCatch 1 0 staleCatchState).sessionIdRef = 3 ∧
    (startAudioCatch 1 0 staleCatchState).closedSockets = [9] ∧
    (startAudioCatch 1 0 staleCatchState).socketRef = none := by
  refine ⟨rfl, rfl, ?_, rfl, rfl, ?_, ?_, ?_⟩
  · simp [onMessageHandler, staleTranscriptMsg, staleEpochState, idleState, addMessage]
    decide
  all_goals
    simp [startAudioCatch, stopSession_eq, staleCatchState, idleState]

/-- **C1 amended**: the socket `onopen`, `onclose` and `onerror` callbacks
and the *fulfilled* module-load and permission continuations capture their
issue-time epoch and, on mismatch, perform no observable effect beyond
releasing the resources they just acquired (the callbacks return the state
untouched; the module-load continuation only closes the context it created
and clears its own ref to it; the permission continuation additionally
stops the just-acquired tracks).  The inbound-message handler and the
`startAudio` *rejection* continuation perform no epoch comparison at all:
each behaves identically at every captured epoch, and the rejection
continuation runs the full `stopSession` cleanup — bumping the epoch and
closing the current connection handle — whenever it fires. -/
theorem c1_stale_continuations_guarded (e : ℕ) (now : ℚ) (sock : Socket)
    (ctx stream : ℕ) (st : AgentState) (h : st.sessionIdRef ≠ e) :
    onOpenHandler e st = st ∧
    onCloseHandler e now st = st ∧
    onErrorHandler e now sock st = st ∧
    startAudioPhaseB e ctx st =
      { st with
        closedCtxs := st.closedCtxs ++ [ctx],
        audioContextRef :=
          if st.audioContextRef = some ctx then none else st.audioContextRef } ∧
    startAudioPhaseC e ctx stream st =
      { st with
        stoppedStreams := st.stoppedStreams ++ [stream],
        closedCtxs := st.closedCtxs ++ [ctx],
        audioContextRef :=
          if st.audioContextRef = some ctx then none else st.audioContextRef } ∧
    (∀ (e2 : ℕ) (t : ℕ) (m : InMsg),
      onMessageHandler e now t m st = onMessageHandler e2 now t m st) ∧
    (∀ e2, startAudioCatch e now st = startAudioCatch e2 now st) ∧
    startAudioCatch e now st = stopSession now none st ∧
    (startAudioCatch e now st).sessionIdRef = st.sessionIdRef + 1 ∧
    (startAudioCatch e now st).socketRef = none ∧
    (startAudioCatch e now st).closedSockets =
      st.closedSockets ++ st.socketRef.toList.map Socket.sockId := by
  refine ⟨?_, ?_, ?_, ?_, ?_, fun e2 t m => rfl, fun e2 => rfl, rfl, ?_, ?_, ?_⟩
  · simp [onOpenHandler, h]
  · simp [onCloseHandler, h]
  · simp [onErrorHandler, h]
  · unfold startAudioPhaseB
    rw [if_pos (Or.inl h)]
    split_ifs with hc <;> simp [hc]
  · unfold startAudioPhaseC
    rw [if_pos (Or.inl h)]
    split_ifs with hc <;> simp [hc]
  all_goals
    simp [startAudioCatch, stopSession_eq]

/-- Witness for C1 at a concrete input (stale epoch 1 against current 2). -/
theorem c1_witness :
    onOpenHandler 1 staleEpochState = staleEpochState ∧
    onCloseHandler 1 4 staleEpochState = staleEpochState ∧
    onErrorHandler 1 4 ⟨7, 1⟩ staleEpochState = staleEpochState ∧
    startAudioPhaseB 1 3 staleEpochState =
      { staleEpochState with
        closedCtxs := staleEpochState.closedCtxs ++ [3],
        audioContextRef :=
          if staleEpochState.audioContextRef = some 3 then none
          else staleEpochState.audioContextRef } ∧
    startAudioPhaseC 1 3 4 staleEpochState =
      { staleEpochState with
        stoppedStreams := staleEpochState.stoppedStreams ++ [4],
        closedCtxs := staleEpochState.closedCtxs ++ [3],
        audioContextRef :=
          if staleEpochState.audioContextRef = some 3 then none
          else staleEpochState.audioContextRef } ∧
    (∀ (e2 : ℕ) (t : ℕ) (m : InMsg),
      onMessageHandler 1 4 t m staleEpochState = onMessageHandler e2 4 t m staleEpochState) ∧
    (∀ e2, startAudioCatch 1 4 staleEpochState = startAudioCatch e2 4 staleEpochState) ∧
    startAudioCatch 1 4 staleEpochState = stopSession 4 none staleEpochState ∧
    (startAudioCatch 1 4 staleEpochState).sessionIdRef = staleEpochState.sessionIdRef + 1 ∧
    (startAudioCatch 1 4 staleEpochState).socketRef = none ∧
    (startAudioCatch 1 4 staleEpochState).closedSockets =
      staleEpochState.closedSockets ++ staleEpochState.socketRef.toList.map Socket.sockId :=
  c1_stale_continuations_guarded 1 4 ⟨7, 1⟩ 3 4 staleEpochState (by decide)

/-- **C7**: `start()` then `stop()` before the permission prompt resolves.
Phase B (module load) passes its guard untouched while the session is
live; after `stopSession`, the resolving permission continuation finds the
epoch moved on, stops the just-acquired device tracks and closes the audio
engine immediately, never stores the handle, wires no capture pipeline and
sends nothing; the superseded session's socket was already closed by the
stop. -/
theorem c7_stop_before_permission (st : AgentState) (sock : Socket)
    (ctx stream : ℕ) (nowA nowStop : ℚ) :
    startAudioPhaseB (startSession sock st).sessionIdRef ctx
        (startAudioPhaseA ctx nowA (startSession sock st)) =
      startAudioPhaseA ctx nowA (startSession sock st) ∧
    (let st4 := startAudioPhaseC (startSession sock st).sessionIdRef ctx stream
        (stopSession nowStop none (startAudioPhaseA ctx nowA (startSession sock st)))
     stream ∈ st4.stoppedStreams ∧
     ctx ∈ st4.closedCtxs ∧
     st4.streamRef = none ∧
     st4.wiredWorklets = st.wiredWorklets ∧
     st4.sentFrames = st.sentFrames ∧
     sock.sockId ∈ st4.closedSockets) := by
  constructor
  · unfold startAudioPhaseB
    rw [if_neg]
    simp [startAudioPhaseA, startSession]
  · rw [stopSession_eq]
    unfold startAudioPhaseC
    rw [if_pos]
    · simp [startAudioPhaseA, startSession]
    · left
      simp [startAudioPhaseA, startSession]

/-- The six inbound message types the dispatcher recognizes. -/
def recognizedTypes : List String :=
  ["response.audio.delta",
   "conversation.item.input_audio_transcription.completed",
   "response.audio_transcript.done",
   "response.function_call_arguments.done",
   "input_audio_buffer.speech_started",
   "error"]

/-- **C8**: the dispatcher is total on degenerate input and appends no
Conversation Entry for it: non-JSON text, a missing or unrecognized `type`,
a recognized transcript type whose transcript is missing or trims to
empty, and `type = "error"` (diagnostic log only — session untouched) all
return the state unchanged. -/
theorem c8_dispatcher_resilience (e : ℕ) (now : ℚ) (t : ℕ) (st : AgentState) :
    (∀ raw, onMessageHandler e now t (InMsg.nonJson raw) st = st) ∧
    (∀ m : JsonMsg, m.type = none → onMessageHandler e now t (InMsg.json m) st = st) ∧
    (∀ (m : JsonMsg) (ty : String), m.type = some ty → ty ∉ recognizedTypes →
      onMessageHandler e now t (InMsg.json m) st = st) ∧
    (∀ m : JsonMsg,
      m.type = some "conversation.item.input_audio_transcription.completed" →
      trimString (m.transcript.getD "") = "" →
      onMessageHandler e now t (InMsg.json m) st = st) ∧
    (∀ m : JsonMsg, m.type = some "response.audio_transcript.done" →
      trimString (m.transcript.getD "") = "" →
      onMessageHandler e now t (InMsg.json m) st = st) ∧
    (∀ m : JsonMsg, m.type = some "error" →
      onMessageHandler e now t (InMsg.json m) st = st) := by
  refine ⟨fun raw => rfl, ?_, ?_, ?_, ?_, ?_⟩
  · intro m hty
    simp [onMessageHandler, hty]
  · intro m ty hty hnot
    simp only [recognizedTypes, List.mem_cons, List.not_mem_nil, or_false, not_or] at hnot
    obtain ⟨n1, n2, n3, n4, n5, n6⟩ := hnot
    simp [onMessageHandler, hty, n1, n2, n3, n4, n5, n6]
  · intro m hty htr
    simp [onMessageHandler, hty, htr]
  · intro m hty htr
    simp [onMessageHandler, hty, htr]
  · intro m hty
    simp [onMessageHandler, hty]

/-- Witness for C8 at concrete inputs. -/
theorem c8_witness :
    onMessageHandler 1 0 5 (InMsg.nonJson "hello") idleState = idleState ∧
    onMessageHandler 1 0 5
      (InMsg.json ⟨some "session.created", none, none, none, none, none⟩) idleState
      = idleState ∧
    onMessageHandler 1 0 5
      (InMsg.json ⟨some "response.audio_transcript.done", none, none, none, none, none⟩)
      idleState = idleState ∧
    onMessageHandler 1 0 5
      (InMsg.json ⟨some "conversation.item.input_audio_transcription.completed", none,
        some "  ", none, none, none⟩) idleState = idleState ∧
    onMessageHandler 1 0 5
      (InMsg.json ⟨some "error", none, none, none, none, some "boom"⟩) idleState
      = idleState := by
  have h := c8_dispatcher_resilience 1 0 5 idleState
  exact ⟨h.1 "hello",
         h.2.2.1 _ "session.created" rfl (by decide),
         h.2.2.2.2.1 _ rfl (by decide),
         h.2.2.2.1 _ rfl (by decide),
         h.2.2.2.2.2 _ rfl⟩

/-! ## Playback scheduler invariant (C3) -/

/-- The scheduler invariant maintained by `playAudioChunk`: an output
context exists, the scheduled units are chained end-to-start, durations are
nonnegative, and the cursor is at or past the end of every scheduled
unit. -/
structure SchedInv (st : AgentState) : Prop where
  ctx : st.audioContextRef.isSome
  chain : st.scheduledAudioRef.Chain' (fun a b => a.startTime + a.duration ≤ b.startTime)
  durs : ∀ a ∈ st.scheduledAudioRef, 0 ≤ a.duration
  cursor : ∀ a ∈ st.scheduledAudioRef, a.startTime + a.duration ≤ st.nextStartTimeRef

theorem schedInv_playAudioChunk (now : ℚ) (pcm : List ℤ) (st : AgentState)
    (h : SchedInv st) : SchedInv (playAudioChunk now pcm st) := by
  obtain ⟨hc, hch, hd, hcur⟩ := h
  rcases ho : st.audioContextRef with _ | c
  · rw [ho] at hc; simp at hc
  · have hdur : (0 : ℚ) ≤ ((pcm.map decodeSample).length : ℚ) / 24000 := by positivity
    have hstart : st.nextStartTimeRef ≤ max now st.nextStartTimeRef := le_max_right _ _
    unfold playAudioChunk
    rw [ho]
    refine ⟨by simp [ho], ?_, ?_, ?_⟩
    · simp only
      rw [List.chain'_append]
      refine ⟨hch, List.chain'_singleton _, ?_⟩
      intro a ha b hb
      simp only [List.head?_cons, Option.mem_def, Option.some.injEq] at hb
      subst hb
      have ham : a ∈ st.scheduledAudioRef := List.mem_of_mem_getLast? ha
      exact le_trans (hcur a ham) hstart
    · intro a ha
      simp only [List.mem_append, List.mem_singleton] at ha
      rcases ha with ha | ha
      · exact hd a ha
      · subst ha; exact hdur
    · intro a ha
      simp only [List.mem_append, List.mem_singleton] at ha
      rcases ha with ha | ha
      · exact le_trans (le_trans (hcur a ha) hstart) (by linarith)
      · subst ha; simp

theorem schedInv_enqueueRun :
    ∀ (ops : List (ℚ × List ℤ)) (st : AgentState), SchedInv st →
      SchedInv (enqueueRun st ops) := by
  intro ops
  induction ops with
  | nil => intro st h; exact h
  | cons p rest ih =>
    intro st h
    exact ih (playAudioChunk p.1 p.2 st) (schedInv_playAudioChunk p.1 p.2 st h)

theorem chain_start_le_of_chain_end :
    ∀ l : List ScheduledSource, (∀ a ∈ l, 0 ≤ a.duration) →
      l.Chain' (fun a b => a.startTime + a.duration ≤ b.startTime) →
      l.Chain' (fun a b => a.startTime ≤ b.startTime) := by
  intro l
  induction l with
  | nil => intro _ _; simp
  | cons a rest ih =>
    intro hd hc
    cases rest with
    | nil => simp
    | cons b r =>
      rw [List.chain'_cons] at hc ⊢
      refine ⟨?_, ih (fun x hx => hd x (List.mem_cons_of_mem a hx)) hc.2⟩
      have := hd a (List.mem_cons_self a _)
      linarith [hc.1]

/-- **C3**: with a live output context, each chunk is scheduled to start at
`max(clock.now(), cursor)` and the cursor becomes that start time plus the
chunk's duration; over any flush-free run of enqueues from a state
satisfying the scheduler invariant, the scheduled units are chained so that
each unit's start time is at least the previous unit's end time, and start
times are non-decreasing in enqueue order. -/
theorem c3_gapless_scheduling :
    (∀ (now : ℚ) (pcm : List ℤ) (st : AgentState) (c : ℕ),
      st.audioContextRef = some c →
      (playAudioChunk now pcm st).scheduledAudioRef =
        st.scheduledAudioRef ++
          [⟨st.nextNodeId, max now st.nextStartTimeRef, (pcm.length : ℚ) / 24000⟩] ∧
      (playAudioChunk now pcm st).nextStartTimeRef =
        max now st.nextStartTimeRef + (pcm.length : ℚ) / 24000) ∧
    (∀ (st : AgentState) (ops : List (ℚ × List ℤ)), SchedInv st →
      (enqueueRun st ops).scheduledAudioRef.Chain'
        (fun a b => a.startTime + a.duration ≤ b.startTime) ∧
      (enqueueRun st ops).scheduledAudioRef.Chain'
        (fun a b => a.startTime ≤ b.startTime)) := by
  constructor
  · intro now pcm st c hc
    unfold playAudioChunk
    rw [hc]
    simp
  · intro st ops h
    have h2 := schedInv_enqueueRun ops st h
    exact ⟨h2.chain, chain_start_le_of_chain_end _ h2.durs h2.chain⟩

/-- A freshly flushed live-scheduler state. -/
def liveSchedState : AgentState :=
  { idleState with audioContextRef := some 3, nextStartTimeRef := 1 }

/-- Witness for C3 at concrete inputs. -/
theorem c3_witness :
    ((playAudioChunk 2 [0, 0] liveSchedState).scheduledAudioRef =
        liveSchedState.scheduledAudioRef ++
          [⟨liveSchedState.nextNodeId, max 2 liveSchedState.nextStartTimeRef,
            ((2 : ℕ) : ℚ) / 24000⟩] ∧
      (playAudioChunk 2 [0, 0] liveSchedState).nextStartTimeRef =
        max 2 liveSchedState.nextStartTimeRef + ((2 : ℕ) : ℚ) / 24000) ∧
    ((enqueueRun liveSchedState [(2, [0, 0]), (0, [0])]).scheduledAudioRef.Chain'
        (fun a b => a.startTime + a.duration ≤ b.startTime) ∧
      (enqueueRun liveSchedState [(2, [0, 0]), (0, [0])]).scheduledAudioRef.Chain'
        (fun a b => a.startTime ≤ b.startTime)) :=
  ⟨c3_gapless_scheduling.1 2 [0, 0] liveSchedState 3 rfl,
   c3_gapless_scheduling.2 liveSchedState [(2, [0, 0]), (0, [0])]
     ⟨rfl, by simp [liveSchedState, idleState], by simp [liveSchedState, idleState],
      by simp [liveSchedState, idleState]⟩⟩

/-! ## Codec round-trip (C9) -/

theorem charToSextet_sextetToChar : ∀ n, n < 64 → charToSextet (sextetToChar n) = some n := by
  decide

theorem sextetToChar_ne_pad : ∀ n, n < 64 → sextetToChar n ≠ '=' := by
  decide

theorem decode_encode_chunks :
    ∀ (l : List ℕ), (∀ x ∈ l, x < 256) → decodeChunks (encodeChunks l) = some l
  | [], _ => rfl
  | [b1], h => by
    have hb1 : b1 < 256 := h b1 (by simp)
    have h1 : charToSextet (sextetToChar (b1 / 4)) = some (b1 / 4) :=
      charToSextet_sextetToChar _ (by omega)
    have h2 : charToSextet (sextetToChar (b1 % 4 * 16)) = some (b1 % 4 * 16) :=
      charToSextet_sextetToChar _ (by omega)
    simp only [encodeChunks, decodeChunks, decode4, h1, h2, ne_eq,
      not_true_eq_false, and_false, if_false, if_true, ite_false, ite_true,
      reduceIte, List.cons.injEq, Option.some.injEq, List.append_nil, and_true]
    omega
  | [b1, b2], h => by
    have hb1 : b1 < 256 := h b1 (by simp)
    have hb2 : b2 < 256 := h b2 (by simp)
    have h1 : charToSextet (sextetToChar (b1 / 4)) = some (b1 / 4) :=
      charToSextet_sextetToChar _ (by omega)
    have h2 : charToSextet (sextetToChar (b1 % 4 * 16 + b2 / 16)) =
        some (b1 % 4 * 16 + b2 / 16) :=
      charToSextet_sextetToChar _ (by omega)
    have h3 : charToSextet (sextetToChar (b2 % 16 * 4)) = some (b2 % 16 * 4) :=
      charToSextet_sextetToChar _ (by omega)
    have hne3 : sextetToChar (b2 % 16 * 4) ≠ '=' :=
      sextetToChar_ne_pad _ (by omega)
    simp only [encodeChunks, decodeChunks, decode4, h1, h2, h3, hne3, ne_eq,
      not_true_eq_false, and_false, if_false, if_true, ite_false, ite_true,
      reduceIte, List.cons.injEq, Option.some.injEq, and_true, List.append_nil]
    omega
  | b1 :: b2 :: b3 :: rest, h => by
    have hb1 : b1 < 256 := h b1 (by simp)
    have hb2 : b2 < 256 := h b2 (by simp)
    have hb3 : b3 < 256 := h b3 (by simp)
    have ih := decode_encode_chunks rest (fun x hx => h x (by simp [hx]))
    have h1 : charToSextet (sextetToChar (b1 / 4)) = some (b1 / 4) :=
      charToSextet_sextetToChar _ (by omega)
    have h2 : charToSextet (sextetToChar (b1 % 4 * 16 + b2 / 16)) =
        some (b1 % 4 * 16 + b2 / 16) :=
      charToSextet_sextetToChar _ (by omega)
    have h3 : charToSextet (sextetToChar (b2 % 16 * 4 + b3 / 64)) =
        some (b2 % 16 * 4 + b3 / 64) :=
      charToSextet_sextetToChar _ (by omega)
    have h4 : charToSextet (sextetToChar (b3 % 64)) = some (b3 % 64) :=
      charToSextet_sextetToChar _ (by omega)
    have hne3 : sextetToChar (b2 % 16 * 4 + b3 / 64) ≠ '=' :=
      sextetToChar_ne_pad _ (by omega)
    have hne4 : sextetToChar (b3 % 64) ≠ '=' :=
      sextetToChar_ne_pad _ (by omega)
    show decodeChunks
        (sextetToChar (b1 / 4) :: sextetToChar (b1 % 4 * 16 + b2 / 16) ::
         sextetToChar (b2 % 16 * 4 + b3 / 64) :: sextetToChar (b3 % 64) ::
         encodeChunks rest) = some (b1 :: b2 :: b3 :: rest)
    simp only [decodeChunks, decode4, h1, h2, h3, h4, hne3, hne4, ne_eq,
      false_or, or_self, false_and, and_false, if_false, ite_false, reduceIte,
      ih, List.cons.injEq, Option.some.injEq, List.cons_append, List.nil_append]
    refine ⟨by omega, by omega, by omega, trivial⟩

theorem decodeChunks_length_mod :
    ∀ l : List Char, l.length % 4 ≠ 0 → decodeChunks l = none
  | [], h => absurd rfl h
  | [_], _ => rfl
  | [_, _], _ => rfl
  | [_, _, _], _ => rfl
  | c1 :: c2 :: c3 :: c4 :: rest, h => by
    have hr : rest.length % 4 ≠ 0 := by
      simp only [List.length_cons] at h
      omega
    have ih := decodeChunks_length_mod rest hr
    simp only [decodeChunks]
    split
    · rfl
    · cases hd4 : decode4 c1 c2 c3 c4 <;> simp [hd4, ih]

/-- **C9**: the PCM codec round-trips within quantization error: for every
sample in [-1,1], `decode (encode x)` is within 1/32768 of `x`; the
transport-text (base64) mapping round-trips every byte sequence exactly;
and malformed transport text (length not a multiple of four) is rejected
with a decoding error (`none`), never partial output. -/
theorem c9_codec_round_trip :
    (∀ x : ℚ, -1 ≤ x → x ≤ 1 →
      |decodeSample (encodeSample x) - x| ≤ 1 / 32768) ∧
    (∀ b : List ℕ, (∀ y ∈ b, y < 256) →
      fromTransportText (toTransportText b) = some b) ∧
    (∀ s : String, s.data.length % 4 ≠ 0 → fromTransportText s = none) := by
  refine ⟨?_, ?_, ?_⟩
  · intro x h1 h2
    have hcl : max (-1 : ℚ) (min 1 x) = x := by
      rw [min_eq_right h2, max_eq_right h1]
    simp only [encodeSample, decodeSample, hcl]
    rcases le_or_lt (⌊x * 32768⌋) 32767 with hf | hf
    · rw [min_eq_right hf]
      have e1 : ((⌊x * 32768⌋ : ℤ) : ℚ) ≤ x * 32768 := Int.floor_le _
      have e2 : x * 32768 - 1 < ((⌊x * 32768⌋ : ℤ) : ℚ) := Int.sub_one_lt_floor _
      rw [abs_le]
      constructor <;> [linarith; linarith]
    · have hub : ((⌊x * 32768⌋ : ℤ) : ℚ) ≤ 32768 :=
        le_trans (Int.floor_le _) (by linarith)
      have h32 : ⌊x * 32768⌋ = 32768 := by
        have : (⌊x * 32768⌋ : ℤ) ≤ 32768 := by exact_mod_cast hub
        omega
      have hx1 : x = 1 := by
        have hge : (32768 : ℚ) ≤ x * 32768 := by
          have := Int.floor_le (x * 32768)
          rw [h32] at this
          exact_mod_cast this
        linarith
      rw [h32, hx1]
      norm_num [abs_le]
  · intro b hb
    exact decode_encode_chunks b hb
  · intro s hs
    exact decodeChunks_length_mod s.data hs

/-- Witness for C9 at concrete inputs. -/
theorem c9_witness :
    |decodeSample (encodeSample (1 / 2)) - 1 / 2| ≤ 1 / 32768 ∧
    fromTransportText (toTransportText [104, 105]) = some [104, 105] ∧
    fromTransportText "AB" = none :=
  ⟨c9_codec_round_trip.1 (1 / 2) (by norm_num) (by norm_num),
   c9_codec_round_trip.2.1 [104, 105] (by decide),
   c9_codec_round_trip.2.2 "AB" (by decide)⟩

end VoiceCRM
